import Mathlib

/-
Shallow embedding of the membership / payment-reconciliation core of the
footy job-board backend (src/app/api/v1/membership.py, src/app/db/crud/*,
src/app/api/v1/candidates.py), together with proofs of the specified
properties.

Modelling conventions:
  - Timestamps are rationals measured in days (`datetime.utcnow()` becomes an
    abstract `now : ℚ`; `timedelta(days=30)` becomes `+ 30`).
  - Currency amounts are exact rationals; Python's binary floating point is
    not modelled.  Where a claim hinges on truncation versus rounding the
    discrepancy is already present in exact arithmetic.
  - The database session is a pair of states: the `committed` contents and
    the `pending` view of the open transaction.  Queries run against the
    pending view (SQLAlchemy sessions see their own uncommitted writes);
    `commit` publishes the pending view; an aborted request rolls back,
    leaving `committed` as the durable state.
  - External collaborators (the Stripe client library, the filesystem) enter
    as explicit parameters carrying their observed results.
-/

namespace Footy

/-- db/tables/membership.py: `MembershipPlan` enum.  Declaration order
matters: `upgrade_membership` ranks plans by `list(MembershipPlan).index`. -/
inductive MembershipPlan
  | basic
  | premium
  | professional
deriving DecidableEq, Repr

/-- db/tables/membership.py: `MembershipStatus` enum. -/
inductive MembershipStatus
  | active
  | expired
  | cancelled
  | pending
deriving DecidableEq, Repr

/-- db/tables/user.py: `UserRole` enum. -/
inductive UserRole
  | candidate
  | team
  | admin
deriving DecidableEq, Repr

/-- db/tables/membership.py: the `Membership` row.  `id` is the surrogate
primary key.  Dates are in days, prices in dollars (see header). -/
structure Membership where
  id : Nat
  user_id : Nat
  plan_type : MembershipPlan
  status : MembershipStatus
  price : ℚ
  start_date : ℚ
  renewal_date : ℚ
  stripe_subscription_id : Option String := none
  stripe_payment_intent_id : Option String := none
deriving DecidableEq, Repr

/-- db/tables/user.py: the `User` row, restricted to the fields the verified
operations read or write. -/
structure User where
  id : Nat
  role : UserRole
  is_active : Bool
  cv_file_path : Option String := none
deriving DecidableEq, Repr

/-- The durable database contents: one list per table, in table order (the
order rows were inserted), which is the order an unordered `SELECT` yields. -/
structure DBState where
  memberships : List Membership
  users : List User
deriving DecidableEq, Repr

/-- A request-scoped SQLAlchemy session: `committed` is what the database
holds durably, `pending` is the session's transactional view including its
own uncommitted writes. -/
structure Session where
  committed : DBState
  pending : DBState
deriving DecidableEq, Repr

/-- A session whose transaction has no writes yet, as handed to a request by
`get_db_session`. -/
def Session.fresh (d : DBState) : Session := { committed := d, pending := d }

/-- The WHERE clause of `MembershipCrud.get_active_membership_by_user_id`:
`Membership.user_id == user_id AND Membership.status == ACTIVE`. -/
def isActiveForUser (user_id : Nat) (m : Membership) : Bool :=
  decide (m.user_id = user_id ∧ m.status = MembershipStatus.active)

/-- db/crud/membership.py `get_active_membership_by_user_id`: executes the
filtered select and takes `.first()`, i.e. the first matching row in table
order. -/
def get_active_membership_by_user_id (d : DBState) (user_id : Nat) :
    Option Membership :=
  d.memberships.find? (isActiveForUser user_id)

/-- Modelled from the spec: `BaseCrud.create` (db/crud/base.py is not in the
source tree; only its subclasses and callers are).  §5 of the spec: every
request works inside a session-scoped transaction that commits or rolls back
as a unit, so `create` inserts the new row into the pending transactional
view without committing. -/
def BaseCrud.create (s : Session) (m : Membership) : Session :=
  { s with pending := { s.pending with memberships := s.pending.memberships ++ [m] } }

/-- Modelled from the spec: `BaseCrud.commit_session` (db/crud/base.py is not
in the source tree).  Commits the open transaction, publishing the pending
view as the durable state. -/
def commit_session (s : Session) : Session :=
  { committed := s.pending, pending := s.pending }

/-- db/crud/user.py `UsersCrud.activate_user`: select the user by id; if
present set `is_active = True` and COMMIT the session (the commit publishes
every pending write of the shared session, not just this one); if absent
return None without committing. -/
def activate_user (s : Session) (user_id : Nat) : Session × Option User :=
  match s.pending.users.find? (fun u => decide (u.id = user_id)) with
  | none => (s, none)
  | some u =>
      let pending1 : DBState :=
        { s.pending with
          users := s.pending.users.map
            (fun v => if v.id = user_id then { v with is_active := true } else v) }
      ({ committed := pending1, pending := pending1 }, some { u with is_active := true })

/-- api/v1/membership.py `MEMBERSHIP_PRICES`. -/
def MEMBERSHIP_PRICES : MembershipPlan → ℚ
  | MembershipPlan.basic => 999 / 100
  | MembershipPlan.premium => 1999 / 100
  | MembershipPlan.professional => 2999 / 100

/-- A `payment_intent` event object as read by the reconciliation handler:
its Stripe id and the two metadata entries the handler extracts.  `none`
models an absent metadata key (`metadata.get` returning None, on which the
handler's `int(...)` / `MembershipPlan(...)` conversions raise). -/
structure PaymentIntent where
  id : String
  metadata_user_id : Option Nat
  metadata_plan_type : Option MembershipPlan
deriving DecidableEq, Repr

/-- The fresh surrogate id the database assigns to an inserted membership
row. -/
def freshMembershipId (d : DBState) : Nat :=
  (d.memberships.map Membership.id).foldr max 0 + 1

/-- The membership row `handle_payment_success` builds in `membership_data`. -/
def reconcileMembership (d : DBState) (now : ℚ) (user_id : Nat)
    (plan_type : MembershipPlan) (intentId : String) : Membership :=
  { id := freshMembershipId d
    user_id := user_id
    plan_type := plan_type
    status := MembershipStatus.active
    price := MEMBERSHIP_PRICES plan_type
    start_date := now
    renewal_date := now + 30
    stripe_payment_intent_id := some intentId }

/-- api/v1/membership.py `handle_payment_success`: extract `user_id` and
`plan_type` from the event metadata (a missing key raises, modelled as
`.error`); return unchanged if an active membership already exists; otherwise
insert the active membership row, activate the user (which commits the shared
session), and commit. -/
def handle_payment_success (now : ℚ) (s : Session) (pi : PaymentIntent) :
    Except String Session :=
  match pi.metadata_user_id, pi.metadata_plan_type with
  | some user_id, some plan_type =>
      match get_active_membership_by_user_id s.pending user_id with
      | some _ => Except.ok s
      | none =>
          let m := reconcileMembership s.pending now user_id plan_type pi.id
          let s1 := BaseCrud.create s m
          let s2 := (activate_user s1 user_id).1
          Except.ok (commit_session s2)
  | _, _ => Except.error "TypeError"

/-- The boundaries at which an execution of the reconciliation write path
(`handle_payment_success`, or the confirm-payment endpoint, which shares the
same check / create / activate / commit shape) can be cut short by a
failure. -/
inductive ReconcileStep
  | afterIdempotentCheck
  | afterCreate
  | afterActivateUser
  | completed
deriving DecidableEq, Repr

/-- The durable database state left behind when `handle_payment_success` runs
up to the given step and the request then aborts: the open transaction rolls
back, so only what some commit already published survives.  The body mirrors
`handle_payment_success` statement for statement. -/
def handle_payment_success_upTo (now : ℚ) (s : Session) (pi : PaymentIntent)
    (k : ReconcileStep) : DBState :=
  match pi.metadata_user_id, pi.metadata_plan_type with
  | some user_id, some plan_type =>
      match get_active_membership_by_user_id s.pending user_id with
      | some _ => s.committed
      | none =>
          let m := reconcileMembership s.pending now user_id plan_type pi.id
          match k with
          | ReconcileStep.afterIdempotentCheck => s.committed
          | ReconcileStep.afterCreate => (BaseCrud.create s m).committed
          | ReconcileStep.afterActivateUser =>
              ((activate_user (BaseCrud.create s m) user_id).1).committed
          | ReconcileStep.completed =>
              (commit_session ((activate_user (BaseCrud.create s m) user_id).1)).committed
  | _, _ => s.committed

/-- The outcome of `stripe.Webhook.construct_event`, an external library
call: the parsed event, a `ValueError` (malformed payload), or a
`SignatureVerificationError`. -/
inductive ConstructEventResult
  | ok (eventType : String) (data_object : PaymentIntent)
  | valueError
  | signatureVerificationError
deriving DecidableEq, Repr

/-- api/v1/membership.py `stripe_webhook`.  A missing `stripe-signature`
header, a malformed payload, or a bad signature each raise an HTTP 400 before
the event body is touched (the handler's catch-all re-wraps the inner
exceptions; the status stays 400).  Only a verified
`payment_intent.succeeded` event reaches `handle_payment_success`;
`payment_intent.payment_failed` is only logged; other event types are
ignored.  The returned session is the database state the request leaves
behind (errors happen before any write, so it is the input session). -/
def stripe_webhook (now : ℚ) (s : Session) (sig_header : Option String)
    (construct : ConstructEventResult) :
    Session × Except (Nat × String) String :=
  match sig_header with
  | none => (s, Except.error (400, "Webhook error: No signature header"))
  | some _ =>
      match construct with
      | ConstructEventResult.valueError =>
          (s, Except.error (400, "Webhook error: Invalid payload"))
      | ConstructEventResult.signatureVerificationError =>
          (s, Except.error (400, "Webhook error: Invalid signature"))
      | ConstructEventResult.ok eventType data_object =>
          if eventType = "payment_intent.succeeded" then
            match handle_payment_success now s data_object with
            | Except.ok s1 => (s1, Except.ok "success")
            | Except.error e => (s, Except.error (400, "Webhook error: " ++ e))
          else
            (s, Except.ok "success")

/-- A payment intent as returned by `stripe.PaymentIntent.retrieve` in
`confirm_payment`: its status string and the `user_id` metadata entry
(`metadata.get` yields `none` when absent; Stripe metadata values are
strings). -/
structure RetrievedIntent where
  status : String
  metadata_user_id : Option String
deriving DecidableEq, Repr

/-- api/v1/membership.py `confirm_payment`: retrieve the intent; 400 unless
its status is "succeeded"; 403 unless its `user_id` metadata equals the
authenticated caller's id; otherwise insert the active membership row,
activate the caller and commit.  Uses `datetime.now()` for `start_date`,
modelled by the same abstract clock. -/
def confirm_payment (now : ℚ) (s : Session) (current_user : User)
    (payment_intent_id : String) (plan_type : MembershipPlan)
    (intent : RetrievedIntent) :
    Session × Except (Nat × String) Membership :=
  if intent.status ≠ "succeeded" then
    (s, Except.error (400, "Payment not completed"))
  else if intent.metadata_user_id ≠ some (toString current_user.id) then
    (s, Except.error (403, "Payment does not belong to current user"))
  else
    let m : Membership :=
      { id := freshMembershipId s.pending
        user_id := current_user.id
        plan_type := plan_type
        status := MembershipStatus.active
        price := MEMBERSHIP_PRICES plan_type
        start_date := now
        renewal_date := now + 30
        stripe_payment_intent_id := some payment_intent_id }
    let s1 := BaseCrud.create s m
    let s2 := (activate_user s1 current_user.id).1
    (commit_session s2, Except.ok m)

/-- The durable database state left behind when `confirm_payment` runs up to
the given step and the request then aborts: the open transaction rolls back,
so only what some commit already published survives.  The body mirrors
`confirm_payment` statement for statement; `afterIdempotentCheck` here reads
as "after the status and ownership checks, before any write". -/
def confirm_payment_upTo (now : ℚ) (s : Session) (current_user : User)
    (payment_intent_id : String) (plan_type : MembershipPlan)
    (intent : RetrievedIntent) (k : ReconcileStep) : DBState :=
  if intent.status ≠ "succeeded" then s.committed
  else if intent.metadata_user_id ≠ some (toString current_user.id) then s.committed
  else
    let m : Membership :=
      { id := freshMembershipId s.pending
        user_id := current_user.id
        plan_type := plan_type
        status := MembershipStatus.active
        price := MEMBERSHIP_PRICES plan_type
        start_date := now
        renewal_date := now + 30
        stripe_payment_intent_id := some payment_intent_id }
    match k with
    | ReconcileStep.afterIdempotentCheck => s.committed
    | ReconcileStep.afterCreate => (BaseCrud.create s m).committed
    | ReconcileStep.afterActivateUser =>
        ((activate_user (BaseCrud.create s m) current_user.id).1).committed
    | ReconcileStep.completed =>
        (commit_session ((activate_user (BaseCrud.create s m) current_user.id).1)).committed

/-- Modelled from the spec: `BaseCrud.get_by_id` (db/crud/base.py is not in
the source tree).  §4.1's `transition_status(membership_id, ...)` addresses
the membership row by its surrogate id, so `get_by_id` returns the row with
that id, or none. -/
def get_by_id (d : DBState) (membership_id : Nat) : Option Membership :=
  d.memberships.find? (fun m => decide (m.id = membership_id))

/-- db/crud/membership.py `update_membership_status`: fetch the row by id; if
present assign the new status — with no validation of the transition — commit,
and return the refreshed row; if absent return None. -/
def update_membership_status (s : Session) (membership_id : Nat)
    (status : MembershipStatus) : Session × Option Membership :=
  match get_by_id s.pending membership_id with
  | none => (s, none)
  | some m =>
      let pending1 : DBState :=
        { s.pending with
          memberships := s.pending.memberships.map
            (fun x => if x.id = membership_id then { x with status := status } else x) }
      ({ committed := pending1, pending := pending1 }, some { m with status := status })

/-- Floor of a rational to an integer (`q.num / q.den` with Euclidean
division; the denominator is positive, so this rounds toward negative
infinity).  `timedelta.days` behaves this way. -/
def ratFloor (q : ℚ) : Int :=
  Int.ediv q.num (q.den : Int)

/-- Python's `int()` applied to a number: truncation toward zero. -/
def pyIntTrunc (q : ℚ) : Int :=
  if 0 ≤ q then ratFloor q else - ratFloor (-q)

/-- Python's `(renewal_date - datetime.utcnow()).days`: whole days, rounded
toward negative infinity. -/
def pyTimedeltaDays (q : ℚ) : Int := ratFloor q

/-- api/v1/membership.py: `list(MembershipPlan).index(p)`, the tier rank used
by `upgrade_membership` (declaration order basic, premium, professional). -/
def planIndex : MembershipPlan → Nat
  | MembershipPlan.basic => 0
  | MembershipPlan.premium => 1
  | MembershipPlan.professional => 2

/-- The arguments `upgrade_membership` passes to
`stripe.PaymentIntent.create`: the amount in cents and the attached
metadata. -/
structure UpgradeIntentRequest where
  amount_cents : Int
  currency : String
  metadata_user_id : Nat
  metadata_plan_type : MembershipPlan
  metadata_upgrade : String
  metadata_current_membership_id : Nat
deriving DecidableEq, Repr

/-- api/v1/membership.py `upgrade_membership`: 400 if the caller has no
active membership; 400 if the requested plan's rank is not strictly above the
current plan's; otherwise compute `days_remaining` as whole days until the
renewal date, pro-rate daily over 30 days, and request a payment intent for
`int(upgrade_amount * 100)` cents.  The endpoint performs no database write;
the successful branch records the provider call it makes. -/
def upgrade_membership (now : ℚ) (s : Session) (current_user : User)
    (new_plan : MembershipPlan) :
    Session × Except (Nat × String) UpgradeIntentRequest :=
  match get_active_membership_by_user_id s.pending current_user.id with
  | none => (s, Except.error (400, "No active membership to upgrade"))
  | some current_membership =>
      if planIndex new_plan ≤ planIndex current_membership.plan_type then
        (s, Except.error (400, "New plan must be higher tier than current plan"))
      else
        let days_remaining : Int :=
          pyTimedeltaDays (current_membership.renewal_date - now)
        let new_price : ℚ := MEMBERSHIP_PRICES new_plan
        let current_price : ℚ := current_membership.price
        let daily_current : ℚ := current_price / 30
        let daily_new : ℚ := new_price / 30
        let upgrade_amount : ℚ := (daily_new - daily_current) * (days_remaining : ℚ)
        (s, Except.ok
          { amount_cents := pyIntTrunc (upgrade_amount * 100)
            currency := "usd"
            metadata_user_id := current_user.id
            metadata_plan_type := new_plan
            metadata_upgrade := "true"
            metadata_current_membership_id := current_membership.id })

/-- The amount in cents of the payment intent an upgrade run requested, or
none when the run failed before calling the provider. -/
def upgradeAmountCents (r : Except (Nat × String) UpgradeIntentRequest) :
    Option Int :=
  match r with
  | Except.ok intent => some intent.amount_cents
  | Except.error _ => none

/-- Rounding a dollar amount to whole cents, following the spec words
"rounded to cents" (nearest cent, halves up).  Stated for comparison with the
truncation the code performs. -/
def roundToCentsSpec (q : ℚ) : Int :=
  ratFloor (q * 100 + 1 / 2)

/-- utils/stripe_utils.py `create_stripe_checkout_session`: the metadata
dictionary it attaches to the checkout session — environment, ride_id and
ride_hash entries, as key/value pairs. -/
def create_stripe_checkout_session_metadata (environment : String)
    (ride_id : Int) (ride_hash : Option String) : List (String × String) :=
  [("environment", environment),
   ("ride_id", toString ride_id),
   ("ride_hash", ride_hash.getD "None")]

/-- api/v1/candidates.py `require_candidate_role` (the upload-cv guard
dependency): 403 unless the caller's role is candidate. -/
def require_candidate_role (current_user : User) : Except (Nat × String) User :=
  if current_user.role ≠ UserRole.candidate then
    Except.error (403, "Only candidates can perform this action")
  else
    Except.ok current_user

/-- api/v1/candidates.py `ALLOWED_EXTENSIONS` list inside `upload_cv`. -/
def allowed_extensions : List String := [".pdf", ".doc", ".docx"]

/-- The uploaded file as `upload_cv` observes it: its filename, the lowered
extension `os.path.splitext` yields, and the byte length of its content. -/
structure CVFile where
  filename : String
  extension : String
  size : Nat
deriving DecidableEq, Repr

/-- api/v1/candidates.py `upload_cv`.  The `require_candidate_role`
dependency runs first; then the active-membership guard; then filename,
extension and size validation; then the file is written under a generated
name (`new_path`, uuid generation abstracted) and the candidate's
`cv_file_path` is committed.  The middle component lists the paths written to
storage. -/
def upload_cv (s : Session) (current_user : User) (file : CVFile)
    (max_file_size : Nat) (new_path : String) :
    Session × List String × Except (Nat × String) String :=
  match require_candidate_role current_user with
  | Except.error e => (s, [], Except.error e)
  | Except.ok _ =>
      match get_active_membership_by_user_id s.pending current_user.id with
      | none =>
          (s, [], Except.error (403,
            "Active membership required to upload CV. Please purchase a membership first."))
      | some _ =>
          if file.filename = "" then
            (s, [], Except.error (400, "No file uploaded"))
          else if file.extension ∉ allowed_extensions then
            (s, [], Except.error (400, "Only PDF, DOC, and DOCX files are allowed"))
          else if file.size > max_file_size then
            (s, [], Except.error (400, "File size exceeds maximum limit"))
          else
            match s.pending.users.find? (fun u => decide (u.id = current_user.id)) with
            | none => (s, [], Except.error (404, "User not found"))
            | some _ =>
                let pending1 : DBState :=
                  { s.pending with
                    users := s.pending.users.map
                      (fun v => if v.id = current_user.id
                                then { v with cv_file_path := some new_path }
                                else v) }
                ({ committed := pending1, pending := pending1 },
                 [new_path], Except.ok "CV file uploaded successfully")

/-! Concrete fixtures used by the witness and counterexample theorems. -/

/-- Test fixture: a candidate user with id 7, not yet activated. -/
def wUser : User := { id := 7, role := UserRole.candidate, is_active := false }

/-- Test fixture: a database holding only that candidate and no memberships. -/
def wDB : DBState := { memberships := [], users := [wUser] }

/-- Test fixture: a `payment_intent.succeeded` payload attributed to user 7,
plan basic. -/
def wIntent : PaymentIntent :=
  { id := "pi_w", metadata_user_id := some 7, metadata_plan_type := some MembershipPlan.basic }

/-- Test fixture for the status-transition claims: an active basic membership
with surrogate id 1 owned by user 7. -/
def c6Membership : Membership :=
  { id := 1, user_id := 7, plan_type := MembershipPlan.basic,
    status := MembershipStatus.active, price := 999 / 100,
    start_date := 0, renewal_date := 30 }

/-- Test fixture: a fresh session over that single membership and user 7. -/
def c6Session : Session :=
  Session.fresh { memberships := [c6Membership], users := [wUser] }

/-- Test fixture for the upgrade claims: a candidate with an active premium
membership renewing 20 days after the chosen "now" (now is 10, renewal 30). -/
def c7User : User := { id := 9, role := UserRole.candidate, is_active := true }

/-- Test fixture: c7User's active premium membership, surrogate id 2. -/
def c7Membership : Membership :=
  { id := 2, user_id := 9, plan_type := MembershipPlan.premium,
    status := MembershipStatus.active, price := 1999 / 100,
    start_date := 0, renewal_date := 30 }

/-- Test fixture: a fresh session over that membership and user. -/
def c7Session : Session :=
  Session.fresh { memberships := [c7Membership], users := [c7User] }

/-- Test fixture: a team user, who must not be able to upload a CV. -/
def c9TeamUser : User := { id := 11, role := UserRole.team, is_active := true }

/-- Test fixture: a PDF upload of 100 bytes. -/
def c9File : CVFile := { filename := "cv.pdf", extension := ".pdf", size := 100 }

/-- Test fixture: a retrieved payment intent that has not succeeded. -/
def c10PendingIntent : RetrievedIntent :=
  { status := "requires_payment_method", metadata_user_id := some "7" }

/-- Test fixture: a succeeded retrieved payment intent whose metadata names
user 7. -/
def c4SucceededIntent : RetrievedIntent :=
  { status := "succeeded", metadata_user_id := some "7" }

/-! Helper lemmas about list queries. -/

lemma find?_append_eq {α} (p : α → Bool) {l₁ : List α} (l₂ : List α)
    (h : l₁.find? p = none) : (l₁ ++ l₂).find? p = l₂.find? p := by
  induction l₁ with
  | nil => rfl
  | cons a t ih =>
      cases hpa : p a with
      | true => simp [List.find?_cons, hpa] at h
      | false =>
          simp only [List.find?_cons, hpa] at h
          simpa only [List.cons_append, List.find?_cons, hpa] using ih h

lemma filter_eq_nil_of_find?_eq_none {α} {p : α → Bool} {l : List α}
    (h : l.find? p = none) : l.filter p = [] := by
  induction l with
  | nil => rfl
  | cons a t ih =>
      cases hpa : p a with
      | true => simp [List.find?_cons, hpa] at h
      | false =>
          simp only [List.find?_cons, hpa] at h
          simpa only [List.filter_cons, hpa] using ih h

lemma find?_some_of_mem {α} {p : α → Bool} {l : List α} {u : α}
    (hu : u ∈ l) (hpu : p u = true) :
    ∃ v, l.find? p = some v ∧ p v = true ∧ v ∈ l := by
  induction l with
  | nil => cases hu
  | cons a t ih =>
      cases hpa : p a with
      | true => exact ⟨a, by simp [List.find?_cons, hpa], hpa, List.mem_cons_self a t⟩
      | false =>
          have hut : u ∈ t := by
            rcases List.mem_cons.mp hu with h | h
            · exact absurd hpu (by rw [h, hpa]; simp)
            · exact h
          obtain ⟨v, hv, hpv, hvm⟩ := ih hut
          exact ⟨v, by simp [List.find?_cons, hpa, hv], hpv, List.mem_cons_of_mem a hvm⟩

/-! Helper lemmas about the session operations. -/

lemma activate_user_pending_memberships (s : Session) (uid : Nat) :
    ((activate_user s uid).1).pending.memberships = s.pending.memberships := by
  unfold activate_user
  cases s.pending.users.find? (fun u => decide (u.id = uid)) <;> rfl

/-- The membership row the reconciliation handler inserts matches the
active-membership query for its user. -/
lemma isActiveForUser_reconcileMembership (d : DBState) (now : ℚ) (uid : Nat)
    (plan : MembershipPlan) (intentId : String) :
    isActiveForUser uid (reconcileMembership d now uid plan intentId) = true := by
  simp [isActiveForUser, reconcileMembership]

/-! Helper lemmas for evaluating the rational-arithmetic primitives. -/

lemma ratFloor_eq_floor (q : ℚ) : ratFloor q = ⌊q⌋ := by
  rw [Rat.floor_def]
  rfl

lemma ratFloor_of_bounds (q : ℚ) (n : ℤ) (h1 : (n : ℚ) ≤ q) (h2 : q < n + 1) :
    ratFloor q = n := by
  rw [ratFloor_eq_floor]
  exact Int.floor_eq_iff.mpr ⟨h1, h2⟩

lemma pyIntTrunc_of_nonneg (q : ℚ) (h : 0 ≤ q) : pyIntTrunc q = ratFloor q :=
  if_pos h

/-- C1.  Idempotence of payment reconciliation: starting from a state with no
active membership for the event's user, `handle_payment_success` succeeds,
running it a second time with the same event returns success with the session
unchanged (no membership or user mutation), and exactly one active membership
for that user exists afterwards. -/
theorem handle_payment_success_idempotent (now : ℚ) (s : Session)
    (pi : PaymentIntent) (uid : Nat) (plan : MembershipPlan)
    (huid : pi.metadata_user_id = some uid)
    (hplan : pi.metadata_plan_type = some plan)
    (h0 : get_active_membership_by_user_id s.pending uid = none) :
    ∃ s1, handle_payment_success now s pi = Except.ok s1 ∧
      handle_payment_success now s1 pi = Except.ok s1 ∧
      (s1.committed.memberships.filter (isActiveForUser uid)).length = 1 := by
  obtain ⟨pid, pmu, pmp⟩ := pi
  simp only [PaymentIntent.metadata_user_id] at huid
  simp only [PaymentIntent.metadata_plan_type] at hplan
  subst huid; subst hplan
  set m := reconcileMembership s.pending now uid plan pid with hm
  set s1 := commit_session ((activate_user (BaseCrud.create s m) uid).1) with hs1
  have hpend : s1.pending.memberships = s.pending.memberships ++ [m] := by
    rw [hs1]
    show ((activate_user (BaseCrud.create s m) uid).1).pending.memberships = _
    rw [activate_user_pending_memberships]
    rfl
  have hcomm : s1.committed = s1.pending := rfl
  have hrun1 : handle_payment_success now s ⟨pid, some uid, some plan⟩ = Except.ok s1 := by
    simp only [handle_payment_success, h0, hs1, hm]
  have hpm : isActiveForUser uid m = true := isActiveForUser_reconcileMembership _ _ _ _ _
  have hget1 : get_active_membership_by_user_id s1.pending uid = some m := by
    unfold get_active_membership_by_user_id at h0 ⊢
    rw [hpend, find?_append_eq _ _ h0]
    simp [List.find?_cons, hpm]
  have hrun2 : handle_payment_success now s1 ⟨pid, some uid, some plan⟩ = Except.ok s1 := by
    simp only [handle_payment_success, hget1]
  refine ⟨s1, hrun1, hrun2, ?_⟩
  rw [hcomm, hpend, List.filter_append, filter_eq_nil_of_find?_eq_none h0]
  simp [List.filter_cons, hpm]

/-- Witness for C1 at a concrete input. -/
theorem handle_payment_success_idempotent_witness :
    get_active_membership_by_user_id (Session.fresh wDB).pending 7 = none ∧
    (∃ s1, handle_payment_success 0 (Session.fresh wDB) wIntent = Except.ok s1 ∧
      handle_payment_success 0 s1 wIntent = Except.ok s1 ∧
      (s1.committed.memberships.filter (isActiveForUser 7)).length = 1) :=
  ⟨rfl,
   handle_payment_success_idempotent 0 (Session.fresh wDB) wIntent 7
     MembershipPlan.basic rfl rfl rfl⟩

/-- C2.  Webhook signature rejection without mutation: when the signature
header is missing, the payload is malformed, or the signature does not
verify, the webhook endpoint leaves the database session untouched and fails
with a 400 error — the event body is never processed. -/
theorem stripe_webhook_rejects_bad_signature (now : ℚ) (s : Session)
    (sig_header : Option String) (construct : ConstructEventResult)
    (h : sig_header = none ∨ construct = ConstructEventResult.valueError ∨
         construct = ConstructEventResult.signatureVerificationError) :
    (stripe_webhook now s sig_header construct).1 = s ∧
      ∃ detail, (stripe_webhook now s sig_header construct).2 =
        Except.error (400, detail) := by
  rcases h with h | h | h
  · subst h; exact ⟨rfl, _, rfl⟩
  · subst h
    cases sig_header with
    | none => exact ⟨rfl, _, rfl⟩
    | some v => exact ⟨rfl, _, rfl⟩
  · subst h
    cases sig_header with
    | none => exact ⟨rfl, _, rfl⟩
    | some v => exact ⟨rfl, _, rfl⟩

/-- Witness for C2 at a concrete input: a tampered signature. -/
theorem stripe_webhook_rejects_bad_signature_witness :
    ((some "t=1,v1=bad" : Option String) = none ∨
      ConstructEventResult.signatureVerificationError = ConstructEventResult.valueError ∨
      ConstructEventResult.signatureVerificationError =
        ConstructEventResult.signatureVerificationError) ∧
    ((stripe_webhook 0 (Session.fresh wDB) (some "t=1,v1=bad")
        ConstructEventResult.signatureVerificationError).1 = Session.fresh wDB ∧
      ∃ detail, (stripe_webhook 0 (Session.fresh wDB) (some "t=1,v1=bad")
        ConstructEventResult.signatureVerificationError).2 = Except.error (400, detail)) :=
  ⟨Or.inr (Or.inr rfl),
   stripe_webhook_rejects_bad_signature 0 (Session.fresh wDB) (some "t=1,v1=bad")
     ConstructEventResult.signatureVerificationError (Or.inr (Or.inr rfl))⟩

/-- Evaluating `activate_user` when the user lookup succeeds: the activation
is written into the pending view and the session is committed. -/
lemma activate_user_eq_of_find?_some (s : Session) (uid : Nat) (w : User)
    (hfind : s.pending.users.find? (fun v => decide (v.id = uid)) = some w) :
    (activate_user s uid).1 =
      commit_session { s with pending := { s.pending with
        users := s.pending.users.map
          (fun v => if v.id = uid then { v with is_active := true } else v) } } := by
  unfold activate_user commit_session
  rw [hfind]

/-- C3.  Payment-success postcondition: for a user with no active membership,
after `handle_payment_success` processes a success event for plan `plan`,
`get_active_membership` returns a membership that is active, on that plan, at
the fixed table price, starting now, renewing in 30 days, carrying the
provider's payment-intent id — and the user's `is_active` flag is true.  The
fixed table is 9.99 / 19.99 / 29.99. -/
theorem handle_payment_success_postcondition (now : ℚ) (s : Session)
    (pi : PaymentIntent) (uid : Nat) (plan : MembershipPlan) (u : User)
    (huid : pi.metadata_user_id = some uid)
    (hplan : pi.metadata_plan_type = some plan)
    (h0 : get_active_membership_by_user_id s.pending uid = none)
    (hu : u ∈ s.pending.users) (huid2 : u.id = uid) :
    MEMBERSHIP_PRICES MembershipPlan.basic = 999 / 100 ∧
    MEMBERSHIP_PRICES MembershipPlan.premium = 1999 / 100 ∧
    MEMBERSHIP_PRICES MembershipPlan.professional = 2999 / 100 ∧
    ∃ s1, handle_payment_success now s pi = Except.ok s1 ∧
      ∃ m, get_active_membership_by_user_id s1.committed uid = some m ∧
        m.status = MembershipStatus.active ∧
        m.plan_type = plan ∧
        m.price = MEMBERSHIP_PRICES plan ∧
        m.start_date = now ∧
        m.renewal_date = now + 30 ∧
        m.stripe_payment_intent_id = some pi.id ∧
        ∃ v ∈ s1.committed.users, v.id = uid ∧ v.is_active = true := by
  refine ⟨rfl, rfl, rfl, ?_⟩
  obtain ⟨pid, pmu, pmp⟩ := pi
  simp only [PaymentIntent.metadata_user_id] at huid
  simp only [PaymentIntent.metadata_plan_type] at hplan
  subst huid; subst hplan
  set m := reconcileMembership s.pending now uid plan pid with hm
  have hpu : (fun v : User => decide (v.id = uid)) u = true := by simp [huid2]
  obtain ⟨w, hfind, hpw, hwm⟩ :=
    @find?_some_of_mem User (fun v => decide (v.id = uid)) s.pending.users u hu hpu
  have hfind1 : (BaseCrud.create s m).pending.users.find?
      (fun v => decide (v.id = uid)) = some w := hfind
  have hact := activate_user_eq_of_find?_some (BaseCrud.create s m) uid w hfind1
  set s1 := commit_session ((activate_user (BaseCrud.create s m) uid).1) with hs1
  have hs1' : s1.committed =
      { memberships := s.pending.memberships ++ [m]
        users := s.pending.users.map
          (fun v => if v.id = uid then { v with is_active := true } else v) } := by
    rw [hs1, hact]
    rfl
  have hrun1 : handle_payment_success now s ⟨pid, some uid, some plan⟩ = Except.ok s1 := by
    simp only [handle_payment_success, h0, hs1, hm]
  have hpm : isActiveForUser uid m = true := isActiveForUser_reconcileMembership _ _ _ _ _
  have hget1 : get_active_membership_by_user_id s1.committed uid = some m := by
    unfold get_active_membership_by_user_id at h0 ⊢
    rw [hs1', find?_append_eq _ _ h0]
    simp [List.find?_cons, hpm]
  refine ⟨s1, hrun1, m, hget1, rfl, rfl, rfl, rfl, rfl, rfl, ?_⟩
  refine ⟨{ u with is_active := true }, ?_, huid2, rfl⟩
  rw [hs1']
  have : (fun v : User => if v.id = uid then { v with is_active := true } else v) u =
      { u with is_active := true } := by simp [huid2]
  exact this ▸ List.mem_map_of_mem _ hu

/-- Witness for C3 at a concrete input. -/
theorem handle_payment_success_postcondition_witness :
    (get_active_membership_by_user_id (Session.fresh wDB).pending 7 = none ∧
      wUser ∈ (Session.fresh wDB).pending.users) ∧
    (MEMBERSHIP_PRICES MembershipPlan.basic = 999 / 100 ∧
     MEMBERSHIP_PRICES MembershipPlan.premium = 1999 / 100 ∧
     MEMBERSHIP_PRICES MembershipPlan.professional = 2999 / 100 ∧
     ∃ s1, handle_payment_success 0 (Session.fresh wDB) wIntent = Except.ok s1 ∧
      ∃ m, get_active_membership_by_user_id s1.committed 7 = some m ∧
        m.status = MembershipStatus.active ∧
        m.plan_type = MembershipPlan.basic ∧
        m.price = MEMBERSHIP_PRICES MembershipPlan.basic ∧
        m.start_date = 0 ∧
        m.renewal_date = 0 + 30 ∧
        m.stripe_payment_intent_id = some wIntent.id ∧
        ∃ v ∈ s1.committed.users, v.id = 7 ∧ v.is_active = true) :=
  ⟨⟨rfl, by simp [wDB, Session.fresh]⟩,
   handle_payment_success_postcondition 0 (Session.fresh wDB) wIntent 7
     MembershipPlan.basic wUser rfl rfl rfl
     (by simp [wDB, Session.fresh]) rfl⟩

/-- C4.  Atomicity of reconciliation: however an execution of
`handle_payment_success` or of the confirm-payment endpoint is cut short, the
durable state either carries both effects — the new active membership row for
the user with the provider's intent id, and that user activated — or is
exactly the state from before the call; no crash point leaves exactly one of
the two committed.  (Relies on the user existing, which the user-table
foreign key on `Membership.user_id` enforces for any committed
membership.) -/
theorem payment_reconciliation_atomic (now : ℚ) (s : Session)
    (pi : PaymentIntent) (uid : Nat) (plan : MembershipPlan) (u : User)
    (payment_intent_id : String) (intent : RetrievedIntent)
    (huid : pi.metadata_user_id = some uid)
    (hplan : pi.metadata_plan_type = some plan)
    (hu : u ∈ s.pending.users) (huid2 : u.id = uid) (k : ReconcileStep) :
    (handle_payment_success_upTo now s pi k = s.committed ∨
      ((∃ m ∈ (handle_payment_success_upTo now s pi k).memberships,
          m.user_id = uid ∧ m.status = MembershipStatus.active ∧
          m.stripe_payment_intent_id = some pi.id) ∧
       (∃ v ∈ (handle_payment_success_upTo now s pi k).users,
          v.id = uid ∧ v.is_active = true))) ∧
    (confirm_payment_upTo now s u payment_intent_id plan intent k = s.committed ∨
      ((∃ m ∈ (confirm_payment_upTo now s u payment_intent_id plan intent k).memberships,
          m.user_id = uid ∧ m.status = MembershipStatus.active ∧
          m.stripe_payment_intent_id = some payment_intent_id) ∧
       (∃ v ∈ (confirm_payment_upTo now s u payment_intent_id plan intent k).users,
          v.id = uid ∧ v.is_active = true))) := by
  constructor
  · obtain ⟨pid, pmu, pmp⟩ := pi
    simp only [PaymentIntent.metadata_user_id] at huid
    simp only [PaymentIntent.metadata_plan_type] at hplan
    subst huid; subst hplan
    cases hga : get_active_membership_by_user_id s.pending uid with
    | some m0 =>
        left
        simp only [handle_payment_success_upTo, hga]
    | none =>
        set m := reconcileMembership s.pending now uid plan pid with hm
        have hpu : (fun v : User => decide (v.id = uid)) u = true := by simp [huid2]
        obtain ⟨w, hfind, hpw, hwm⟩ :=
          @find?_some_of_mem User (fun v => decide (v.id = uid)) s.pending.users u hu hpu
        have hfind1 : (BaseCrud.create s m).pending.users.find?
            (fun v => decide (v.id = uid)) = some w := hfind
        have hact := activate_user_eq_of_find?_some (BaseCrud.create s m) uid w hfind1
        have hboth :
            (∃ m1 ∈ (s.pending.memberships ++ [m]),
                m1.user_id = uid ∧ m1.status = MembershipStatus.active ∧
                m1.stripe_payment_intent_id = some pid) ∧
            (∃ v ∈ s.pending.users.map
                (fun v => if v.id = uid then { v with is_active := true } else v),
                v.id = uid ∧ v.is_active = true) := by
          constructor
          · exact ⟨m, List.mem_append_right _ (List.mem_singleton_self m), rfl, rfl, rfl⟩
          · refine ⟨{ u with is_active := true }, ?_, huid2, rfl⟩
            have : (fun v : User => if v.id = uid then { v with is_active := true } else v) u =
                { u with is_active := true } := by simp [huid2]
            exact this ▸ List.mem_map_of_mem _ hu
        cases k with
        | afterIdempotentCheck =>
            left; simp only [handle_payment_success_upTo, hga]
        | afterCreate =>
            left; simp only [handle_payment_success_upTo, hga]; rfl
        | afterActivateUser =>
            right
            have hstate : handle_payment_success_upTo now s ⟨pid, some uid, some plan⟩
                ReconcileStep.afterActivateUser =
                { memberships := s.pending.memberships ++ [m]
                  users := s.pending.users.map
                    (fun v => if v.id = uid then { v with is_active := true } else v) } := by
              simp only [handle_payment_success_upTo, hga, hm]
              rw [hact]
              rfl
            rw [hstate]
            exact hboth
        | completed =>
            right
            have hstate : handle_payment_success_upTo now s ⟨pid, some uid, some plan⟩
                ReconcileStep.completed =
                { memberships := s.pending.memberships ++ [m]
                  users := s.pending.users.map
                    (fun v => if v.id = uid then { v with is_active := true } else v) } := by
              simp only [handle_payment_success_upTo, hga, hm]
              rw [hact]
              rfl
            rw [hstate]
            exact hboth
  · by_cases h1 : intent.status ≠ "succeeded"
    · left
      simp only [confirm_payment_upTo]
      rw [if_pos h1]
    · by_cases h2 : intent.metadata_user_id ≠ some (toString u.id)
      · left
        simp only [confirm_payment_upTo]
        rw [if_neg h1, if_pos h2]
      · set m : Membership :=
          { id := freshMembershipId s.pending
            user_id := u.id
            plan_type := plan
            status := MembershipStatus.active
            price := MEMBERSHIP_PRICES plan
            start_date := now
            renewal_date := now + 30
            stripe_payment_intent_id := some payment_intent_id } with hm
        have hpu : (fun v : User => decide (v.id = u.id)) u = true := by simp
        obtain ⟨w, hfind, hpw, hwm⟩ :=
          @find?_some_of_mem User (fun v => decide (v.id = u.id)) s.pending.users u hu hpu
        have hfind1 : (BaseCrud.create s m).pending.users.find?
            (fun v => decide (v.id = u.id)) = some w := hfind
        have hact := activate_user_eq_of_find?_some (BaseCrud.create s m) u.id w hfind1
        have hboth :
            (∃ m1 ∈ (s.pending.memberships ++ [m]),
                m1.user_id = uid ∧ m1.status = MembershipStatus.active ∧
                m1.stripe_payment_intent_id = some payment_intent_id) ∧
            (∃ v ∈ s.pending.users.map
                (fun v => if v.id = u.id then { v with is_active := true } else v),
                v.id = uid ∧ v.is_active = true) := by
          constructor
          · exact ⟨m, List.mem_append_right _ (List.mem_singleton_self m), huid2, rfl, rfl⟩
          · refine ⟨{ u with is_active := true }, ?_, huid2, rfl⟩
            have : (fun v : User => if v.id = u.id then { v with is_active := true } else v) u =
                { u with is_active := true } := by simp
            exact this ▸ List.mem_map_of_mem _ hu
        cases k with
        | afterIdempotentCheck =>
            left
            simp only [confirm_payment_upTo]
            rw [if_neg h1, if_neg h2]
        | afterCreate =>
            left
            simp only [confirm_payment_upTo]
            rw [if_neg h1, if_neg h2]
            rfl
        | afterActivateUser =>
            right
            have hstate : confirm_payment_upTo now s u payment_intent_id plan intent
                ReconcileStep.afterActivateUser =
                { memberships := s.pending.memberships ++ [m]
                  users := s.pending.users.map
                    (fun v => if v.id = u.id then { v with is_active := true } else v) } := by
              simp only [confirm_payment_upTo]
              rw [if_neg h1, if_neg h2, hm]
              rw [hact]
              rfl
            rw [hstate]
            exact hboth
        | completed =>
            right
            have hstate : confirm_payment_upTo now s u payment_intent_id plan intent
                ReconcileStep.completed =
                { memberships := s.pending.memberships ++ [m]
                  users := s.pending.users.map
                    (fun v => if v.id = u.id then { v with is_active := true } else v) } := by
              simp only [confirm_payment_upTo]
              rw [if_neg h1, if_neg h2, hm]
              rw [hact]
              rfl
            rw [hstate]
            exact hboth

/-- Witness for C4 at a concrete input: a crash right after the membership
insert, before the user activation, on both write paths. -/
theorem payment_reconciliation_atomic_witness :
    (wUser ∈ (Session.fresh wDB).pending.users) ∧
    ((handle_payment_success_upTo 0 (Session.fresh wDB) wIntent
        ReconcileStep.afterCreate = (Session.fresh wDB).committed ∨
      ((∃ m ∈ (handle_payment_success_upTo 0 (Session.fresh wDB) wIntent
            ReconcileStep.afterCreate).memberships,
          m.user_id = 7 ∧ m.status = MembershipStatus.active ∧
          m.stripe_payment_intent_id = some wIntent.id) ∧
       (∃ v ∈ (handle_payment_success_upTo 0 (Session.fresh wDB) wIntent
            ReconcileStep.afterCreate).users,
          v.id = 7 ∧ v.is_active = true))) ∧
     (confirm_payment_upTo 0 (Session.fresh wDB) wUser "pi_w" MembershipPlan.basic
        c4SucceededIntent ReconcileStep.afterCreate = (Session.fresh wDB).committed ∨
      ((∃ m ∈ (confirm_payment_upTo 0 (Session.fresh wDB) wUser "pi_w"
            MembershipPlan.basic c4SucceededIntent ReconcileStep.afterCreate).memberships,
          m.user_id = 7 ∧ m.status = MembershipStatus.active ∧
          m.stripe_payment_intent_id = some "pi_w") ∧
       (∃ v ∈ (confirm_payment_upTo 0 (Session.fresh wDB) wUser "pi_w"
            MembershipPlan.basic c4SucceededIntent ReconcileStep.afterCreate).users,
          v.id = 7 ∧ v.is_active = true)))) :=
  ⟨by simp [wDB, Session.fresh],
   payment_reconciliation_atomic 0 (Session.fresh wDB) wIntent 7
     MembershipPlan.basic wUser "pi_w" c4SucceededIntent rfl rfl
     (by simp [wDB, Session.fresh]) rfl ReconcileStep.afterCreate⟩

/-- C5.  What the code actually attaches to a checkout session: the metadata
dictionary built by `create_stripe_checkout_session` never contains a
`user_id` or a `plan_type` entry, for any argument values — its keys are
exactly `environment`, `ride_id` and `ride_hash`, so the reconciliation
handler cannot attribute the eventual event. -/
theorem checkout_session_metadata_lacks_attribution :
    ∀ (environment : String) (ride_id : Int) (ride_hash : Option String),
      (create_stripe_checkout_session_metadata environment ride_id ride_hash).map
          Prod.fst = ["environment", "ride_id", "ride_hash"] ∧
      "user_id" ∉ (create_stripe_checkout_session_metadata environment ride_id
          ride_hash).map Prod.fst ∧
      "plan_type" ∉ (create_stripe_checkout_session_metadata environment ride_id
          ride_hash).map Prod.fst := by
  intro environment ride_id ride_hash
  refine ⟨rfl, ?_, ?_⟩ <;>
    · show _ ∉ (["environment", "ride_id", "ride_hash"] : List String)
      decide

/-- Counterexample to C6: `active -> pending` is not among the four permitted
transitions, so the claim demands an `InvalidTransition` failure that leaves
the record unchanged; the code instead commits the new status and returns the
updated row. -/
theorem update_membership_status_invalid_transition_counterexample :
    (update_membership_status c6Session 1 MembershipStatus.pending).2 =
      some { c6Membership with status := MembershipStatus.pending } ∧
    (update_membership_status c6Session 1 MembershipStatus.pending).1.committed ≠
      c6Session.committed := by
  refine ⟨rfl, ?_⟩
  intro heq
  exact absurd (congrArg (fun d => d.memberships.map Membership.status) heq) (by decide)

/-- C6 as amended.  `update_membership_status` validates nothing: for every
existing membership and every requested status — whatever the current one —
it succeeds, returns the row with the new status, and commits the change,
touching no other row; it returns none only when the id does not exist. -/
theorem update_membership_status_unvalidated (s : Session) (membership_id : Nat)
    (status : MembershipStatus) (m : Membership)
    (hget : get_by_id s.pending membership_id = some m) :
    (update_membership_status s membership_id status).2 = some { m with status := status } ∧
    (update_membership_status s membership_id status).1.committed.memberships.length =
      s.pending.memberships.length ∧
    ∀ x ∈ s.pending.memberships, x.id ≠ membership_id →
      x ∈ (update_membership_status s membership_id status).1.committed.memberships := by
  have heq : update_membership_status s membership_id status =
      ({ committed := { s.pending with
            memberships := s.pending.memberships.map
              (fun x => if x.id = membership_id then { x with status := status } else x) }
         pending := { s.pending with
            memberships := s.pending.memberships.map
              (fun x => if x.id = membership_id then { x with status := status } else x) } },
       some { m with status := status }) := by
    unfold update_membership_status
    rw [hget]
  rw [heq]
  refine ⟨rfl, by simp, ?_⟩
  intro x hx hne
  have hfix : (fun y : Membership =>
      if y.id = membership_id then { y with status := status } else y) x = x := by
    simp [hne]
  exact hfix ▸ List.mem_map_of_mem _ hx

/-- Witness for the amended C6 at a concrete input. -/
theorem update_membership_status_unvalidated_witness :
    get_by_id c6Session.pending 1 = some c6Membership ∧
    ((update_membership_status c6Session 1 MembershipStatus.expired).2 =
        some { c6Membership with status := MembershipStatus.expired } ∧
     (update_membership_status c6Session 1 MembershipStatus.expired).1.committed.memberships.length =
        c6Session.pending.memberships.length ∧
     ∀ x ∈ c6Session.pending.memberships, x.id ≠ 1 →
        x ∈ (update_membership_status c6Session 1 MembershipStatus.expired).1.committed.memberships) :=
  ⟨rfl,
   update_membership_status_unvalidated c6Session 1 MembershipStatus.expired
     c6Membership rfl⟩

/-- Counterexample to C7: upgrading premium to professional with 20 whole
days remaining.  The exact pro-rated amount is (29.99-19.99)/30 * 20 dollars
= 2000/3 cents ≈ 666.67 cents; rounded to cents that is 667, but the code
submits `int(upgrade_amount * 100)` = 666 — it truncates instead of
rounding. -/
theorem upgrade_amount_truncated_counterexample :
    pyTimedeltaDays (c7Membership.renewal_date - 10) = 20 ∧
    upgradeAmountCents
      (upgrade_membership 10 c7Session c7User MembershipPlan.professional).2 = some 666 ∧
    roundToCentsSpec (((MEMBERSHIP_PRICES MembershipPlan.professional -
        MEMBERSHIP_PRICES MembershipPlan.premium) / 30) * 20) = 667 := by
  have hdays : pyTimedeltaDays (c7Membership.renewal_date - 10) = 20 := by
    have h20 : c7Membership.renewal_date - 10 = (20 : ℚ) := by
      norm_num [c7Membership]
    rw [pyTimedeltaDays, h20]
    exact ratFloor_of_bounds 20 20 (by norm_num) (by norm_num)
  refine ⟨hdays, ?_, ?_⟩
  · have hget : get_active_membership_by_user_id c7Session.pending c7User.id =
        some c7Membership := rfl
    have hrun : upgradeAmountCents
        (upgrade_membership 10 c7Session c7User MembershipPlan.professional).2 =
        some (pyIntTrunc ((MEMBERSHIP_PRICES MembershipPlan.professional / 30 -
          c7Membership.price / 30) *
          ((pyTimedeltaDays (c7Membership.renewal_date - 10) : ℤ) : ℚ) * 100)) := by
      simp only [upgrade_membership, hget]
      rw [if_neg (by decide)]
      rfl
    rw [hrun, hdays]
    have hval : (MEMBERSHIP_PRICES MembershipPlan.professional / 30 -
        c7Membership.price / 30) * ((20 : ℤ) : ℚ) * 100 = 2000 / 3 := by
      norm_num [MEMBERSHIP_PRICES, c7Membership]
    rw [hval, pyIntTrunc_of_nonneg _ (by norm_num)]
    rw [ratFloor_of_bounds (2000 / 3) 666 (by norm_num) (by norm_num)]
  · have hval : ((MEMBERSHIP_PRICES MembershipPlan.professional -
        MEMBERSHIP_PRICES MembershipPlan.premium) / 30) * 20 = (20 : ℚ) / 3 := by
      norm_num [MEMBERSHIP_PRICES]
    rw [roundToCentsSpec, hval]
    have hv2 : (20 : ℚ) / 3 * 100 + 1 / 2 = 4003 / 6 := by norm_num
    rw [hv2]
    exact ratFloor_of_bounds (4003 / 6) 667 (by norm_num) (by norm_num)

/-- C7 as amended.  For a caller with an active membership and a strictly
higher requested tier, the upgrade submits to the provider the amount
`(new_price/30 - current_price/30) * days_remaining` dollars, with
`days_remaining` the whole days until the renewal date, converted to cents by
truncation toward zero (Python's `int`), not by rounding to the nearest
cent. -/
theorem upgrade_membership_prorated_amount (now : ℚ) (s : Session) (u : User)
    (new_plan : MembershipPlan) (cm : Membership)
    (hget : get_active_membership_by_user_id s.pending u.id = some cm)
    (hrank : planIndex cm.plan_type < planIndex new_plan) :
    upgradeAmountCents (upgrade_membership now s u new_plan).2 =
      some (pyIntTrunc ((MEMBERSHIP_PRICES new_plan / 30 - cm.price / 30) *
        ((pyTimedeltaDays (cm.renewal_date - now) : ℤ) : ℚ) * 100)) := by
  simp only [upgrade_membership, hget]
  rw [if_neg (not_le.mpr hrank)]
  rfl

/-- Witness for the amended C7 at a concrete input. -/
theorem upgrade_membership_prorated_amount_witness :
    (get_active_membership_by_user_id c7Session.pending c7User.id = some c7Membership ∧
      planIndex c7Membership.plan_type < planIndex MembershipPlan.professional) ∧
    upgradeAmountCents
        (upgrade_membership 10 c7Session c7User MembershipPlan.professional).2 =
      some (pyIntTrunc ((MEMBERSHIP_PRICES MembershipPlan.professional / 30 -
        c7Membership.price / 30) *
        ((pyTimedeltaDays (c7Membership.renewal_date - 10) : ℤ) : ℚ) * 100)) :=
  ⟨⟨rfl, by decide⟩,
   upgrade_membership_prorated_amount 10 c7Session c7User
     MembershipPlan.professional c7Membership rfl (by decide)⟩

/-- C8.  Upgrade request rejection: whenever the caller has no active
membership the upgrade fails with the 400 no-active-membership error, and
whenever the requested plan's rank (basic < premium < professional) is at or
below the current active plan's rank it fails with the 400 not-an-upgrade
error.  In each case the result is exactly the untouched session paired with
that error, so no payment-provider call is made and no membership or user
state changes. -/
theorem upgrade_membership_rejections (now : ℚ) (s : Session) (u : User)
    (new_plan : MembershipPlan) :
    (get_active_membership_by_user_id s.pending u.id = none →
      upgrade_membership now s u new_plan =
        (s, Except.error (400, "No active membership to upgrade"))) ∧
    (∀ cm, get_active_membership_by_user_id s.pending u.id = some cm →
      planIndex new_plan ≤ planIndex cm.plan_type →
      upgrade_membership now s u new_plan =
        (s, Except.error (400, "New plan must be higher tier than current plan"))) := by
  constructor
  · intro h
    simp [upgrade_membership, h]
  · intro cm hget hle
    simp only [upgrade_membership, hget]
    rw [if_pos hle]

/-- Witness for C8 at a concrete input: user 7 has no membership at all. -/
theorem upgrade_membership_rejections_witness :
    get_active_membership_by_user_id (Session.fresh wDB).pending wUser.id = none ∧
    upgrade_membership 0 (Session.fresh wDB) wUser MembershipPlan.premium =
      (Session.fresh wDB, Except.error (400, "No active membership to upgrade")) :=
  ⟨rfl,
   (upgrade_membership_rejections 0 (Session.fresh wDB) wUser
     MembershipPlan.premium).1 rfl⟩

/-- C9.  CV-upload guard: whenever the caller is not a candidate or has no
active membership, `upload_cv` fails with a 403 carrying a non-empty reason,
writes nothing to storage, and leaves the database session untouched. -/
theorem upload_cv_guard (s : Session) (u : User) (file : CVFile)
    (max_file_size : Nat) (new_path : String)
    (h : u.role ≠ UserRole.candidate ∨
      get_active_membership_by_user_id s.pending u.id = none) :
    (upload_cv s u file max_file_size new_path).1 = s ∧
      (upload_cv s u file max_file_size new_path).2.1 = [] ∧
      ∃ reason, reason ≠ "" ∧
        (upload_cv s u file max_file_size new_path).2.2 = Except.error (403, reason) := by
  by_cases hr : u.role = UserRole.candidate
  · rcases h with h | h
    · exact absurd hr h
    · have hok : require_candidate_role u = Except.ok u := by
        simp [require_candidate_role, hr]
      have heq : upload_cv s u file max_file_size new_path =
          (s, [], Except.error (403,
            "Active membership required to upload CV. Please purchase a membership first.")) := by
        simp [upload_cv, hok, h]
      rw [heq]
      exact ⟨rfl, rfl, _, by decide, rfl⟩
  · have herr : require_candidate_role u =
        Except.error (403, "Only candidates can perform this action") := by
      simp [require_candidate_role, hr]
    have heq : upload_cv s u file max_file_size new_path =
        (s, [], Except.error (403, "Only candidates can perform this action")) := by
      simp [upload_cv, herr]
    rw [heq]
    exact ⟨rfl, rfl, _, by decide, rfl⟩

/-- Witness for C9 at a concrete input: a team user with a valid PDF. -/
theorem upload_cv_guard_witness :
    (c9TeamUser.role ≠ UserRole.candidate ∨
      get_active_membership_by_user_id (Session.fresh wDB).pending c9TeamUser.id = none) ∧
    ((upload_cv (Session.fresh wDB) c9TeamUser c9File 1000 "cvs/11_x.pdf").1 =
        Session.fresh wDB ∧
      (upload_cv (Session.fresh wDB) c9TeamUser c9File 1000 "cvs/11_x.pdf").2.1 = [] ∧
      ∃ reason, reason ≠ "" ∧
        (upload_cv (Session.fresh wDB) c9TeamUser c9File 1000 "cvs/11_x.pdf").2.2 =
          Except.error (403, reason)) :=
  ⟨Or.inl (by decide),
   upload_cv_guard (Session.fresh wDB) c9TeamUser c9File 1000 "cvs/11_x.pdf"
     (Or.inl (by decide))⟩

/-- C10.  Confirm-payment ownership check: a retrieved intent whose status is
not "succeeded" yields a 400 with the untouched session; a succeeded intent
whose `user_id` metadata differs from the authenticated caller's id yields a
403 with the untouched session.  In both cases no membership is created and
no user is activated. -/
theorem confirm_payment_ownership_guard (now : ℚ) (s : Session) (u : User)
    (payment_intent_id : String) (plan_type : MembershipPlan)
    (intent : RetrievedIntent) :
    (intent.status ≠ "succeeded" →
      confirm_payment now s u payment_intent_id plan_type intent =
        (s, Except.error (400, "Payment not completed"))) ∧
    (intent.status = "succeeded" →
      intent.metadata_user_id ≠ some (toString u.id) →
      confirm_payment now s u payment_intent_id plan_type intent =
        (s, Except.error (403, "Payment does not belong to current user"))) := by
  constructor
  · intro h
    simp only [confirm_payment]
    rw [if_pos h]
  · intro h1 h2
    simp only [confirm_payment]
    rw [if_neg (by simp [h1]), if_pos h2]

/-- Witness for C10 at a concrete input: an unfinished payment intent. -/
theorem confirm_payment_ownership_guard_witness :
    c10PendingIntent.status ≠ "succeeded" ∧
    confirm_payment 0 (Session.fresh wDB) wUser "pi_x" MembershipPlan.basic
        c10PendingIntent =
      (Session.fresh wDB, Except.error (400, "Payment not completed")) :=
  ⟨by decide,
   (confirm_payment_ownership_guard 0 (Session.fresh wDB) wUser "pi_x"
     MembershipPlan.basic c10PendingIntent).1 (by decide)⟩

end Footy
